import Mathlib

/-!
Verification of the comment-cache extension: a shallow embedding of
`src/commentStorage.ts` (the persistent comment store) and `src/llmRouter.ts`
(comment generation and level-5 line reconciliation), with theorems checking
the specification's claims about them.

Modelling conventions:
- JavaScript objects used as dictionaries become association lists
  (`JSObj`); a JS object never holds a key twice, so deletion is modelled by
  filtering every occurrence of the key, which agrees with JS on such states.
- JavaScript string operations (`split('\n')`, `trim()`, template literals)
  are re-implemented structurally over the character list so that the kernel
  can evaluate them on concrete inputs.
- External collaborators are parameters: the content digest
  (`crypto.createHash('md5')`) and workspace-relative path computation
  (`vscode.workspace`) become the function fields of `Env`; `Date.now()`
  becomes an explicit `now : Nat` argument; the awaited `axios.post` becomes
  an `ApiOutcome` argument (either a thrown transport error or a response
  body).
-/

namespace CodiumExt

/-! ## JavaScript string primitives -/

/-- Splitting a character list at every newline character; models
JavaScript `String.prototype.split('\n')`, which yields one (possibly empty)
segment per separator gap, in particular `[""]` for the empty string. -/
def splitChars : List Char → List (List Char)
  | [] => [[]]
  | c :: cs =>
    if c = '\n' then [] :: splitChars cs
    else
      match splitChars cs with
      | [] => [[c]]
      | h :: t => (c :: h) :: t

/-- Model of JavaScript `code.split('\n')`. -/
def splitOnNl (s : String) : List String :=
  (splitChars s.data).map String.mk

/-- Drop leading whitespace characters. -/
def trimLeftChars : List Char → List Char
  | [] => []
  | c :: cs => if c.isWhitespace then trimLeftChars cs else c :: cs

/-- Model of JavaScript `String.prototype.trim()`: remove whitespace from
both ends (restricted to the ASCII whitespace relevant here). -/
def jsTrim (s : String) : String :=
  String.mk ((trimLeftChars ((trimLeftChars s.data).reverse)).reverse)

/-- The predicate `line.trim().length > 0` used by the router to keep
non-blank response lines. -/
def nonBlank (line : String) : Bool :=
  decide (0 < (jsTrim line).length)

/-! ## Decimal rendering of a number, for the template literal
`level_${abstractionLevel}` -/

/-- The character of a single decimal digit. -/
def digitChar : Nat → Char
  | 0 => '0' | 1 => '1' | 2 => '2' | 3 => '3' | 4 => '4'
  | 5 => '5' | 6 => '6' | 7 => '7' | 8 => '8' | _ => '9'

/-- Numeric value of a digit character. -/
def digitVal (c : Char) : Nat := c.toNat - 48

/-- Fueled decimal rendering; the fuel bounds the number of digits. -/
def toDecChars : Nat → Nat → List Char
  | 0, _ => []
  | fuel + 1, n =>
    if n < 10 then [digitChar n]
    else toDecChars fuel (n / 10) ++ [digitChar (n % 10)]

/-- Decimal rendering of a natural number, as JavaScript renders a
nonnegative integer inside a template literal. -/
def natToChars (n : Nat) : List Char := toDecChars (n + 1) n

/-- Value of a decimal digit string, most significant digit first. -/
def charsVal (l : List Char) : Nat :=
  l.foldl (fun a c => 10 * a + digitVal c) 0

theorem digitVal_digitChar {d : Nat} (h : d < 10) : digitVal (digitChar d) = d := by
  interval_cases d <;> decide

theorem charsVal_append_digit (l : List Char) (c : Char) :
    charsVal (l ++ [c]) = 10 * charsVal l + digitVal c := by
  simp [charsVal, List.foldl_append]

theorem charsVal_toDecChars : ∀ (fuel n : Nat), n ≤ fuel →
    charsVal (toDecChars fuel n) = n := by
  intro fuel
  induction fuel with
  | zero =>
    intro n hn
    interval_cases n
    decide
  | succ fuel ih =>
    intro n hn
    by_cases h10 : n < 10
    · simp only [toDecChars, if_pos h10, charsVal, List.foldl]
      simpa [charsVal] using digitVal_digitChar h10
    · have hdiv : n / 10 ≤ fuel := by
        have : n / 10 < n := Nat.div_lt_self (by omega) (by omega)
        omega
      simp only [toDecChars, if_neg h10, charsVal_append_digit, ih _ hdiv]
      rw [digitVal_digitChar (Nat.mod_lt _ (by omega))]
      omega

theorem charsVal_natToChars (n : Nat) : charsVal (natToChars n) = n :=
  charsVal_toDecChars (n + 1) n (Nat.le_succ n)

theorem natToChars_injective : Function.Injective natToChars := by
  intro m n h
  have := charsVal_natToChars m
  rw [h, charsVal_natToChars] at this
  omega

/-! ## JavaScript objects as association lists -/

/-- A JavaScript object used as a string-keyed dictionary. -/
abbrev JSObj (α : Type) := List (String × α)

/-- Property read: the value at a key, if present. -/
def jsGet {α : Type} (m : JSObj α) (k : String) : Option α :=
  match m with
  | [] => none
  | (k', v) :: rest => if k' = k then some v else jsGet rest k

/-- Property write: overwrite the value at a key in place, or append the
binding when the key is absent. -/
def jsSet {α : Type} (m : JSObj α) (k : String) (v : α) : JSObj α :=
  match m with
  | [] => [(k, v)]
  | (k', v') :: rest =>
    if k' = k then (k', v) :: rest else (k', v') :: jsSet rest k v

/-- The `delete` operator: remove the binding at a key.  A JS object holds
each key at most once, so filtering every occurrence agrees with it. -/
def jsDel {α : Type} (m : JSObj α) (k : String) : JSObj α :=
  m.filter (fun p => !(decide (p.1 = k)))

/-- The key list `Object.keys(m)`. -/
def jsKeys {α : Type} (m : JSObj α) : List String := m.map Prod.fst

theorem jsGet_jsSet_self {α : Type} (m : JSObj α) (k : String) (v : α) :
    jsGet (jsSet m k v) k = some v := by
  induction m with
  | nil => simp [jsSet, jsGet]
  | cons p rest ih =>
    by_cases h : p.1 = k
    · simp [jsSet, jsGet, h]
    · simp [jsSet, jsGet, h, ih]

theorem jsGet_jsSet_ne {α : Type} (m : JSObj α) {k k' : String} (v : α)
    (h : k' ≠ k) : jsGet (jsSet m k v) k' = jsGet m k' := by
  have hk : ¬(k = k') := fun hh => h hh.symm
  induction m with
  | nil => simp [jsSet, jsGet, hk]
  | cons p rest ih =>
    by_cases hp : p.1 = k
    · subst hp
      simp [jsSet, jsGet, hk]
    · simp [jsSet, jsGet, hp, ih]

theorem jsSet_jsSet_self {α : Type} (m : JSObj α) (k : String) (v w : α) :
    jsSet (jsSet m k v) k w = jsSet m k w := by
  induction m with
  | nil => simp [jsSet]
  | cons p rest ih =>
    by_cases h : p.1 = k
    · simp [jsSet, h]
    · simp [jsSet, h, ih]

theorem jsGet_jsDel_self {α : Type} (m : JSObj α) (k : String) :
    jsGet (jsDel m k) k = none := by
  induction m with
  | nil => simp [jsDel, jsGet]
  | cons p rest ih =>
    by_cases h : p.1 = k
    · simpa [jsDel, h] using ih
    · simpa [jsDel, jsGet, h] using ih

theorem jsGet_jsDel_ne {α : Type} (m : JSObj α) {k k' : String}
    (h : k' ≠ k) : jsGet (jsDel m k) k' = jsGet m k' := by
  induction m with
  | nil => simp [jsDel, jsGet]
  | cons p rest ih =>
    by_cases hp : p.1 = k
    · have hk : ¬(k = k') := fun hh => h hh.symm
      simpa [jsDel, jsGet, hp, hk] using ih
    · simp only [jsDel] at ih
      simp [jsDel, jsGet, hp, ih]

theorem not_mem_jsKeys_jsDel {α : Type} (m : JSObj α) (k : String) :
    k ∉ jsKeys (jsDel m k) := by
  induction m with
  | nil => simp [jsDel, jsKeys]
  | cons p rest ih =>
    by_cases h : p.1 = k
    · simp [jsDel, jsKeys, h]
    · intro hmem
      simp only [jsDel, jsKeys, List.filter_cons, h, decide_False,
        Bool.not_false, if_true, List.map_cons, List.mem_cons] at hmem
      rcases hmem with hh | hh
      · exact h hh.symm
      · exact ih hh

theorem jsGet_eq_none_of_jsDel_eq_nil {α : Type} {k k' : String}
    (h : k' ≠ k) : ∀ {m : JSObj α}, jsDel m k = [] → jsGet m k' = none := by
  intro m
  induction m with
  | nil => intro _; simp [jsGet]
  | cons p rest ih =>
    intro hdel
    by_cases hp : p.1 = k
    · have hne : p.1 ≠ k' := by rw [hp]; exact fun hh => h hh.symm
      rw [jsGet, if_neg hne]
      apply ih
      simpa [jsDel, hp] using hdel
    · simp [jsDel, hp] at hdel

/-! ## Data model of `commentStorage.ts` -/

/-- The `StoredComment` interface: one cached generation result. -/
structure StoredComment where
  comments : List String
  fileHash : String
  timestamp : Nat
  model : String
  language : String
  abstractionLevel : Nat
deriving Repr, DecidableEq

/-- The `metadata` block of the storage document. -/
structure Metadata where
  createdAt : Nat
  updatedAt : Nat
  totalFiles : Nat
  totalComments : Nat
deriving Repr, DecidableEq

/-- The nested `files` mapping: file path, then `level_<n>` key. -/
abbrev FilesMap := JSObj (JSObj StoredComment)

/-- The in-memory `CommentStorageData` document. -/
structure CommentStorageData where
  version : String
  metadata : Metadata
  files : FilesMap
deriving Repr, DecidableEq

/-- A parsed on-disk document before validation: any of the three top-level
properties may be missing (`undefined` in JavaScript). -/
structure RawStorageData where
  version : Option String
  metadata : Option Metadata
  files : Option FilesMap
deriving Repr, DecidableEq

/-- The external collaborators of the store: `hash` is the content digest
(`crypto.createHash('md5')...digest('hex')`) and `rel` is
`getRelativeFilePath`, the workspace-relative path computation delegated to
the editor API.  Both are deterministic functions of their input. -/
structure Env where
  hash : String → String
  rel : String → String

/-- The `STORAGE_VERSION` constant. -/
def STORAGE_VERSION : String := "1.0.0"

/-- Line 135: the cache key ignores the file path and is the template
literal `level_<abstractionLevel>`. -/
def generateCacheKey (_filePath : String) (abstractionLevel : Nat) : String :=
  String.mk ("level_".data ++ natToChars abstractionLevel)

/-- Line 142: digest of the file content, delegated to the environment. -/
def calculateFileHash (env : Env) (content : String) : String :=
  env.hash content

/-- Line 149: workspace-relative path, delegated to the environment. -/
def getRelativeFilePath (env : Env) (filePath : String) : String :=
  env.rel filePath

/-- Line 79: `createEmptyStorage`. -/
def createEmptyStorage (now : Nat) : CommentStorageData :=
  { version := STORAGE_VERSION
    metadata :=
      { createdAt := now, updatedAt := now, totalFiles := 0, totalComments := 0 }
    files := [] }

/-- Line 122: `saveStorage` stamps `metadata.updatedAt` before writing the
document to disk (the write itself is outside the model). -/
def saveStorage (s : CommentStorageData) (now : Nat) : CommentStorageData :=
  { s with metadata := { s.metadata with updatedAt := now } }

/-- Line 232: `updateMetadata` recomputes both counters by walking the
`files` map: a file counts when it has at least one level key, and every
level contributes the length of its comment array. -/
def updateMetadata (s : CommentStorageData) : CommentStorageData :=
  let totals := s.files.foldl
    (fun acc p =>
      if 0 < p.2.length then
        (acc.1 + 1, p.2.foldl (fun t q => t + q.2.comments.length) acc.2)
      else acc)
    (0, 0)
  { s with metadata :=
      { s.metadata with totalFiles := totals.1, totalComments := totals.2 } }

/-- Line 161: `hasComments` finds the entry and compares its stored digest
against the digest of the live content recomputed now. -/
def hasComments (env : Env) (s : CommentStorageData) (filePath : String)
    (abstractionLevel : Nat) (fileContent : String) : Bool :=
  let relativePath := getRelativeFilePath env filePath
  let cacheKey := generateCacheKey filePath abstractionLevel
  match jsGet s.files relativePath with
  | none => false
  | some fileData =>
    match jsGet fileData cacheKey with
    | none => false
    | some stored => stored.fileHash == calculateFileHash env fileContent

/-- Line 179: `getComments` returns the stored comment array regardless of
freshness, or `null` when the entry is absent. -/
def getComments (env : Env) (s : CommentStorageData) (filePath : String)
    (abstractionLevel : Nat) : Option (List String) :=
  let relativePath := getRelativeFilePath env filePath
  let cacheKey := generateCacheKey filePath abstractionLevel
  match jsGet s.files relativePath with
  | none => none
  | some fileData =>
    match jsGet fileData cacheKey with
    | none => none
    | some stored => some stored.comments

/-- Line 193: `storeComments` writes the entry at (relative path, cache
key), creating the per-file object when absent, then recomputes the
metadata and saves. -/
def storeComments (env : Env) (s : CommentStorageData) (filePath : String)
    (abstractionLevel : Nat) (comments : List String) (fileContent : String)
    (model : String) (language : String) (now : Nat) : CommentStorageData :=
  let relativePath := getRelativeFilePath env filePath
  let cacheKey := generateCacheKey filePath abstractionLevel
  let fileHash := calculateFileHash env fileContent
  let existing := (jsGet s.files relativePath).getD []
  let fileData := jsSet existing cacheKey
    { comments := comments, fileHash := fileHash, timestamp := now,
      model := model, language := language, abstractionLevel := abstractionLevel }
  saveStorage (updateMetadata { s with files := jsSet s.files relativePath fileData }) now

/-- Line 267: `removeComments` deletes one (path, level) entry when present,
drops the file object when its last level was removed, then recomputes the
metadata and saves; otherwise the document is untouched. -/
def removeComments (env : Env) (s : CommentStorageData) (filePath : String)
    (abstractionLevel : Nat) (now : Nat) : CommentStorageData :=
  let relativePath := getRelativeFilePath env filePath
  let cacheKey := generateCacheKey filePath abstractionLevel
  match jsGet s.files relativePath with
  | none => s
  | some fileData =>
    match jsGet fileData cacheKey with
    | none => s
    | some _ =>
      let fileData' := jsDel fileData cacheKey
      let files' :=
        if fileData'.length = 0 then jsDel s.files relativePath
        else jsSet s.files relativePath fileData'
      saveStorage (updateMetadata { s with files := files' }) now

/-- Line 253: `removeFile` deletes every level of one file when the file is
present, then recomputes the metadata and saves. -/
def removeFile (env : Env) (s : CommentStorageData) (filePath : String)
    (now : Nat) : CommentStorageData :=
  let relativePath := getRelativeFilePath env filePath
  match jsGet s.files relativePath with
  | none => s
  | some _ =>
    saveStorage (updateMetadata { s with files := jsDel s.files relativePath }) now

/-- Line 288: `clearAll` empties the map, recomputes the metadata and
saves. -/
def clearAll (s : CommentStorageData) (now : Nat) : CommentStorageData :=
  saveStorage (updateMetadata { s with files := [] }) now

/-- The record returned by `getStats` (line 298); `storageSize` comes from
`fs.statSync` and is passed in as an external value. -/
structure StorageStats where
  totalFiles : Nat
  totalComments : Nat
  storageSize : Nat
  createdAt : Nat
  updatedAt : Nat
  version : String
deriving Repr, DecidableEq

/-- Line 298: `getStats` reads the metadata counters verbatim. -/
def getStats (s : CommentStorageData) (storageSize : Nat) : StorageStats :=
  { totalFiles := s.metadata.totalFiles
    totalComments := s.metadata.totalComments
    storageSize := storageSize
    createdAt := s.metadata.createdAt
    updatedAt := s.metadata.updatedAt
    version := s.version }

/-- True when the pattern list is an initial segment of the other list. -/
def leadsWith : List Char → List Char → Bool
  | [], _ => true
  | _ :: _, [] => false
  | p :: ps, c :: cs => p == c && leadsWith ps cs

/-- Replace the first occurrence of a pattern, as JavaScript
`String.prototype.replace` does with a string pattern. -/
def replaceFirstChars (pat rep : List Char) : List Char → List Char
  | [] => []
  | c :: cs =>
    if leadsWith pat (c :: cs) then rep ++ (c :: cs).drop pat.length
    else c :: replaceFirstChars pat rep cs

/-- Model of `key.replace('level_', '')`. -/
def jsReplaceFirst (s pat rep : String) : String :=
  String.mk (replaceFirstChars pat.data rep.data s.data)

/-- Model of `parseInt` on the storage keys: the value of the leading
decimal digits, or `none` for JavaScript `NaN` when the string does not
start with a digit (sign and whitespace handling is irrelevant here). -/
def jsParseInt (s : String) : Option Nat :=
  let ds := s.data.takeWhile (fun c => decide ('0' ≤ c) && decide (c ≤ '9'))
  if ds.length = 0 then none else some (charsVal ds)

/-- One row of the `getStoredFiles` result (line 327); a `none` level models
the `NaN` produced by `parseInt` on a malformed key. -/
structure StoredFileInfo where
  filePath : String
  levels : List (Option Nat)
  lastUpdated : Nat
  totalComments : Nat
deriving Repr, DecidableEq

/-- Line 327: `getStoredFiles` builds one row per file key and sorts rows by
descending `lastUpdated` (the JavaScript comparator returns `b - a`). -/
def getStoredFiles (s : CommentStorageData) : List StoredFileInfo :=
  let result := s.files.map (fun p =>
    { filePath := p.1
      levels := (jsKeys p.2).map
        (fun key => jsParseInt (jsReplaceFirst key "level_" ""))
      lastUpdated := p.2.foldl
        (fun acc q => if q.2.timestamp > acc then q.2.timestamp else acc) 0
      totalComments := p.2.foldl (fun acc q => acc + q.2.comments.length) 0 })
  result.mergeSort (fun a b => decide (b.lastUpdated ≤ a.lastUpdated))

/-- Lines 96-117: `validateAndMigrate`, acting on a freshly parsed document.
The version check runs first and assigns `metadata.updatedAt`; when
`metadata` is absent that assignment is a `TypeError` (modelled as `none`),
which `initializeStorage` catches.  Only afterwards are missing `metadata`
and `files` blocks synthesized; the synthesized `totalFiles` counts every
file key and the synthesized `totalComments` is the literal 0 — neither
counter is recomputed from the entries. -/
def validateAndMigrate (raw : RawStorageData) (now : Nat) :
    Option CommentStorageData :=
  let step1 : Option (Option String × Option Metadata) :=
    if raw.version ≠ some STORAGE_VERSION then
      match raw.metadata with
      | none => none
      | some m => some (some STORAGE_VERSION, some { m with updatedAt := now })
    else some (raw.version, raw.metadata)
  match step1 with
  | none => none
  | some (v, md) =>
    let metadata := md.getD
      { createdAt := now, updatedAt := now,
        totalFiles := (raw.files.getD []).length, totalComments := 0 }
    some { version := v.getD "", metadata := metadata, files := raw.files.getD [] }

/-- Lines 55-74: `initializeStorage`.  `loaded` is `none` when the backing
file does not exist or `JSON.parse` throws; a migration failure is caught
and also falls back to a fresh empty document. -/
def initializeStorage (loaded : Option RawStorageData) (now : Nat) :
    CommentStorageData :=
  match loaded with
  | none => createEmptyStorage now
  | some raw =>
    match validateAndMigrate raw now with
    | none => createEmptyStorage now
    | some d => d

/-! ## Derived counters: the specification-side reading of the metadata
invariant, stated independently of the fold in `updateMetadata` -/

/-- Total comment lines stored under one file. -/
def specSumFd (fd : JSObj StoredComment) : Nat :=
  (fd.map (fun q => q.2.comments.length)).sum

/-- Number of file keys holding at least one level. -/
def specTotalFiles (files : FilesMap) : Nat :=
  files.countP (fun p => decide (0 < p.2.length))

/-- Sum of the comment-array lengths over all stored entries. -/
def specTotalComments (files : FilesMap) : Nat :=
  (files.map (fun p => specSumFd p.2)).sum

theorem foldl_add_comments (fd : JSObj StoredComment) : ∀ t : Nat,
    fd.foldl (fun t q => t + q.2.comments.length) t = t + specSumFd fd := by
  induction fd with
  | nil => intro t; simp [specSumFd]
  | cons q rest ih =>
    intro t
    simp [List.foldl_cons, ih, specSumFd, Nat.add_assoc]

theorem updateMetadata_foldl (files : FilesMap) : ∀ tf tc : Nat,
    files.foldl
      (fun acc p =>
        if 0 < p.2.length then
          (acc.1 + 1, p.2.foldl (fun t q => t + q.2.comments.length) acc.2)
        else acc)
      (tf, tc) = (tf + specTotalFiles files, tc + specTotalComments files) := by
  induction files with
  | nil => intro tf tc; simp [specTotalFiles, specTotalComments]
  | cons p rest ih =>
    intro tf tc
    simp only [List.foldl_cons]
    by_cases hp : 0 < p.2.length
    · rw [if_pos hp, foldl_add_comments, ih]
      simp only [specTotalFiles, specTotalComments, List.countP_cons,
        List.map_cons, List.sum_cons, hp, decide_True, if_true,
        Prod.mk.injEq]
      omega
    · have hnil : p.2 = [] := List.length_eq_zero.mp (by omega)
      rw [if_neg hp, ih]
      simp [specTotalFiles, specTotalComments, List.countP_cons, hnil,
        specSumFd, Prod.ext_iff]

theorem updateMetadata_totals (s : CommentStorageData) :
    (updateMetadata s).metadata.totalFiles = specTotalFiles s.files ∧
      (updateMetadata s).metadata.totalComments = specTotalComments s.files := by
  simp only [updateMetadata]
  rw [updateMetadata_foldl]
  simp

/-! ## Model of `llmRouter.ts` -/

/-- The `CommentRequest` interface; `abstractionLevel` is optional. -/
structure CommentRequest where
  code : String
  language : String
  fileName : String
  abstractionLevel : Option Nat
deriving Repr, DecidableEq

/-- The `CommentResponse` interface. -/
structure CommentResponse where
  comments : List String
  model : String
  success : Bool
  error : Option String
deriving Repr, DecidableEq

/-- Outcome of the awaited `axios.post` call: either the promise rejected
(a thrown error whose `message` the catch block reads; the empty string
models a falsy missing message) or it resolved with a response body holding
the `content` of each choice. -/
inductive ApiOutcome where
  | thrown (message : String)
  | ok (choices : List String)
deriving Repr, DecidableEq

/-- Line 236 of `llmRouter.ts`: the reconciliation loop.  Walking the code
lines with the consumed response lines in place of the `commentIndex`
cursor: a blank code line emits the empty comment, a non-blank code line
consumes the next response line trimmed, and the fixed placeholder is
emitted once the response lines run out. -/
def parseLoop : List String → List String → List String
  | [], _ => []
  | codeLine :: rest, comments =>
    if (jsTrim codeLine).length = 0 then "" :: parseLoop rest comments
    else
      match comments with
      | c :: cs => jsTrim c :: parseLoop rest cs
      | [] => "// Code line" :: parseLoop rest []

/-- Line 222: `parseComments` splits the code into lines, keeps the
non-blank response lines, and runs the reconciliation loop. -/
def parseComments (content : String) (originalCode : String) : List String :=
  let codeLines := splitOnNl originalCode
  let commentLines := (splitOnNl content).filter nonBlank
  parseLoop codeLines commentLines

/-- Line 94: `request.abstractionLevel || 5`; both `undefined` and the falsy
level 0 fall back to 5. -/
def effectiveLevel (level : Option Nat) : Nat :=
  match level with
  | none => 5
  | some 0 => 5
  | some n => n

/-- Lines 61-167: `generateComments`, with the transport outcome passed in.
The missing-key check precedes any call; a rejected call is caught and
reported with the error message or a fixed fallback; a response without
choices is reported; otherwise the first choice's content is parsed per the
effective abstraction level.  `selectModel` always returns the default
`martian` configuration. -/
def generateComments (apiKey : String) (request : CommentRequest)
    (outcome : ApiOutcome) : CommentResponse :=
  if apiKey = "" then
    { comments := [], model := "martian", success := false,
      error := some ("API key not found for martian") }
  else
    match outcome with
    | .thrown msg =>
      { comments := [], model := "unknown", success := false,
        error := some (if msg = "" then "Unknown error occurred" else msg) }
    | .ok choices =>
      match choices with
      | [] =>
        { comments := [], model := "martian", success := false,
          error := some "No response choices from API" }
      | content :: _ =>
        let comments :=
          if effectiveLevel request.abstractionLevel = 5 then
            parseComments content request.code
          else [jsTrim content]
        { comments := comments, model := "martian", success := true,
          error := none }

/-! ## Helper lemmas about the storage operations -/

/-- A concrete environment for witnesses: the digest and the relative-path
computation are both the identity. -/
def envId : Env := { hash := fun s => s, rel := fun s => s }

theorem updateMetadata_files (s : CommentStorageData) :
    (updateMetadata s).files = s.files := by
  simp [updateMetadata]

theorem saveStorage_files (s : CommentStorageData) (now : Nat) :
    (saveStorage s now).files = s.files := by
  simp [saveStorage]

/-- Both counters of the metadata recomputed by `updateMetadata` (and left
alone by `saveStorage`) are the derived values of the resulting map. -/
theorem save_update_counts (s : CommentStorageData) (now : Nat) :
    (saveStorage (updateMetadata s) now).metadata.totalFiles
        = specTotalFiles (saveStorage (updateMetadata s) now).files ∧
      (saveStorage (updateMetadata s) now).metadata.totalComments
        = specTotalComments (saveStorage (updateMetadata s) now).files := by
  have h := updateMetadata_totals s
  rw [saveStorage_files, updateMetadata_files]
  constructor
  · simpa [saveStorage] using h.1
  · simpa [saveStorage] using h.2

theorem storeComments_files (env : Env) (s : CommentStorageData)
    (p : String) (l : Nat) (cs : List String) (c model language : String)
    (now : Nat) :
    (storeComments env s p l cs c model language now).files =
      jsSet s.files (env.rel p)
        (jsSet ((jsGet s.files (env.rel p)).getD []) (generateCacheKey p l)
          { comments := cs, fileHash := env.hash c, timestamp := now,
            model := model, language := language, abstractionLevel := l }) := by
  simp [storeComments, saveStorage, updateMetadata, getRelativeFilePath,
    calculateFileHash]

/-! ## Claims C1 and C2: lookup after store -/

/-- Claim C1: immediately after `storeComments(p, l, cs, c, model,
language)`, `hasComments(p, l, c)` returns true and `getComments(p, l)`
returns `cs`. -/
theorem hasComments_getComments_after_store (env : Env)
    (s : CommentStorageData) (p : String) (l : Nat) (cs : List String)
    (c model language : String) (now : Nat) :
    hasComments env (storeComments env s p l cs c model language now) p l c
        = true ∧
      getComments env (storeComments env s p l cs c model language now) p l
        = some cs := by
  constructor
  · simp [hasComments, storeComments_files, getRelativeFilePath,
      calculateFileHash, jsGet_jsSet_self]
  · simp [getComments, storeComments_files, getRelativeFilePath,
      jsGet_jsSet_self]

/-- Claim C2: after `storeComments(p, l, cs, c, ...)`, the entry is reported
valid for live content exactly when the stored fingerprint (the digest of
`c`) equals the digest of that content recomputed at lookup time; in
particular the lookup is false whenever the digests differ. -/
theorem hasComments_eq_digest_comparison (env : Env)
    (s : CommentStorageData) (p : String) (l : Nat) (cs : List String)
    (c c' model language : String) (now : Nat) :
    (hasComments env (storeComments env s p l cs c model language now) p l c'
        = (env.hash c == env.hash c')) ∧
      (env.hash c ≠ env.hash c' →
        hasComments env (storeComments env s p l cs c model language now) p l c'
          = false) := by
  have hbase :
      hasComments env (storeComments env s p l cs c model language now) p l c'
        = (env.hash c == env.hash c') := by
    simp [hasComments, storeComments_files, getRelativeFilePath,
      calculateFileHash, jsGet_jsSet_self]
  refine ⟨hbase, fun hne => ?_⟩
  rw [hbase]
  exact beq_eq_false_iff_ne.mpr hne

/-- Witness for C2 at a concrete store: distinct contents with distinct
digests make the lookup false. -/
theorem hasComments_eq_digest_comparison_witness :
    envId.hash "line1" ≠ envId.hash "line2" ∧
      hasComments envId
        (storeComments envId (createEmptyStorage 0) "foo.ts" 5 ["x"]
          "line1" "martian" "typescript" 1) "foo.ts" 5 "line2" = false :=
  ⟨by decide,
    (hasComments_eq_digest_comparison envId (createEmptyStorage 0) "foo.ts" 5
      ["x"] "line1" "line2" "martian" "typescript" 1).2 (by decide)⟩

/-! ## Claim C6: idempotence of storeComments on the counters -/

theorem jsSet_ne_nil {α : Type} (m : JSObj α) (k : String) (v : α) :
    jsSet m k v ≠ [] := by
  cases m with
  | nil => simp [jsSet]
  | cons p rest =>
    by_cases h : p.1 = k <;> simp [jsSet, h]

theorem specSumFd_jsSet_congr (fd : JSObj StoredComment) (ck : String)
    (v w : StoredComment) (h : v.comments = w.comments) :
    specSumFd (jsSet fd ck v) = specSumFd (jsSet fd ck w) := by
  induction fd with
  | nil => simp [jsSet, specSumFd, h]
  | cons q rest ih =>
    by_cases hq : q.1 = ck
    · simp [jsSet, hq, specSumFd, h]
    · simp only [jsSet, if_neg hq, specSumFd, List.map_cons, List.sum_cons]
      simp only [specSumFd] at ih
      rw [ih]

theorem spec_totals_jsSet_congr (files : FilesMap) (rp : String)
    {fd1 fd2 : JSObj StoredComment} (hsum : specSumFd fd1 = specSumFd fd2)
    (hlen : 0 < fd1.length ↔ 0 < fd2.length) :
    specTotalFiles (jsSet files rp fd1) = specTotalFiles (jsSet files rp fd2) ∧
      specTotalComments (jsSet files rp fd1)
        = specTotalComments (jsSet files rp fd2) := by
  have hb : decide (0 < fd1.length) = decide (0 < fd2.length) :=
    decide_eq_decide.mpr hlen
  induction files with
  | nil =>
    refine ⟨?_, ?_⟩
    · simp only [jsSet, specTotalFiles, List.countP_cons, List.countP_nil, hb]
    · simp [jsSet, specTotalComments, hsum]
  | cons p rest ih =>
    by_cases hp : p.1 = rp
    · refine ⟨?_, ?_⟩
      · simp only [jsSet, if_pos hp, specTotalFiles, List.countP_cons, hb]
      · simp [jsSet, hp, specTotalComments, hsum]
    · refine ⟨?_, ?_⟩
      · simp only [jsSet, if_neg hp, specTotalFiles, List.countP_cons]
        have h1 := ih.1
        simp only [specTotalFiles] at h1
        rw [h1]
      · simp only [jsSet, if_neg hp, specTotalComments, List.map_cons,
          List.sum_cons]
        have h2 := ih.2
        simp only [specTotalComments] at h2
        rw [h2]

/-- After `storeComments`, both counters equal the derived values of the
resulting map (it ends in `updateMetadata` followed by `saveStorage`). -/
theorem storeComments_counts (env : Env) (s : CommentStorageData)
    (p : String) (l : Nat) (cs : List String) (c model language : String)
    (now : Nat) :
    (storeComments env s p l cs c model language now).metadata.totalFiles
        = specTotalFiles (storeComments env s p l cs c model language now).files ∧
      (storeComments env s p l cs c model language now).metadata.totalComments
        = specTotalComments (storeComments env s p l cs c model language now).files := by
  simp only [storeComments]
  exact save_update_counts _ now

/-- Claim C6: storing the same arguments twice leaves both `getStats`
counters at the single-call value; the second call overwrites the same
entry instead of double counting (only the timestamp can differ between the
two calls). -/
theorem storeComments_idempotent_stats (env : Env) (s : CommentStorageData)
    (p : String) (l : Nat) (cs : List String) (c model language : String)
    (now1 now2 sz1 sz2 : Nat) :
    (getStats (storeComments env
          (storeComments env s p l cs c model language now1)
          p l cs c model language now2) sz2).totalFiles
        = (getStats (storeComments env s p l cs c model language now1)
            sz1).totalFiles ∧
      (getStats (storeComments env
          (storeComments env s p l cs c model language now1)
          p l cs c model language now2) sz2).totalComments
        = (getStats (storeComments env s p l cs c model language now1)
            sz1).totalComments := by
  have hc1 := storeComments_counts env s p l cs c model language now1
  have hc2 := storeComments_counts env
    (storeComments env s p l cs c model language now1) p l cs c model language now2
  have hf1 := storeComments_files env s p l cs c model language now1
  have hf2 := storeComments_files env
    (storeComments env s p l cs c model language now1) p l cs c model language now2
  rw [hf1, jsGet_jsSet_self, Option.getD_some, jsSet_jsSet_self,
    jsSet_jsSet_self] at hf2
  have hcong := spec_totals_jsSet_congr s.files (env.rel p)
    (specSumFd_jsSet_congr ((jsGet s.files (env.rel p)).getD [])
      (generateCacheKey p l)
      { comments := cs, fileHash := env.hash c, timestamp := now2,
        model := model, language := language, abstractionLevel := l }
      { comments := cs, fileHash := env.hash c, timestamp := now1,
        model := model, language := language, abstractionLevel := l }
      rfl)
    (iff_of_true (List.length_pos.mpr (jsSet_ne_nil _ _ _))
      (List.length_pos.mpr (jsSet_ne_nil _ _ _)))
  refine ⟨?_, ?_⟩
  · simp only [getStats]
    rw [hc2.1, hf2, hc1.1, hf1]
    exact hcong.1
  · simp only [getStats]
    rw [hc2.2, hf2, hc1.2, hf1]
    exact hcong.2

/-! ## Claim C4: the derived-counter invariant -/

/-- The invariant claimed for the metadata: both counters equal the values
derived from the entries map. -/
abbrev countersDerived (s : CommentStorageData) : Prop :=
  s.metadata.totalFiles = specTotalFiles s.files ∧
    s.metadata.totalComments = specTotalComments s.files

theorem removeComments_counters (env : Env) (s : CommentStorageData)
    (p : String) (l : Nat) (now : Nat) (h : countersDerived s) :
    countersDerived (removeComments env s p l now) := by
  simp only [removeComments, getRelativeFilePath]
  split
  · exact h
  · split
    · exact h
    · exact save_update_counts _ now

theorem removeFile_counters (env : Env) (s : CommentStorageData)
    (p : String) (now : Nat) (h : countersDerived s) :
    countersDerived (removeFile env s p now) := by
  simp only [removeFile, getRelativeFilePath]
  split
  · exact h
  · exact save_update_counts _ now

/-- Claim C4 (amended): after each mutating operation of the store —
`storeComments`, `removeComments`, `removeFile`, `clearAll` — the metadata
counters equal the values derived from the entries map, granted they did
before the call (the removal operations are no-ops when the key is absent
and then merely preserve the invariant; the other two recompute it
outright).  Loading/migrating an existing document is excluded: it does not
recompute the counters. -/
theorem mutating_ops_keep_counters_derived (env : Env)
    (s : CommentStorageData) (p : String) (l : Nat) (cs : List String)
    (c model language : String) (now : Nat) (h : countersDerived s) :
    countersDerived (storeComments env s p l cs c model language now) ∧
      countersDerived (removeComments env s p l now) ∧
      countersDerived (removeFile env s p now) ∧
      countersDerived (clearAll s now) :=
  ⟨storeComments_counts env s p l cs c model language now,
    removeComments_counters env s p l now h,
    removeFile_counters env s p now h,
    save_update_counts _ now⟩

/-- Concrete store whose counters the invariant theorem is evaluated on. -/
theorem mutating_ops_keep_counters_derived_witness :
    countersDerived (createEmptyStorage 0) ∧
      countersDerived (storeComments envId (createEmptyStorage 0) "a.ts" 1
        ["x"] "c" "m" "ts" 2) ∧
      countersDerived (removeComments envId (createEmptyStorage 0) "a.ts" 1 2) ∧
      countersDerived (removeFile envId (createEmptyStorage 0) "a.ts" 2) ∧
      countersDerived (clearAll (createEmptyStorage 0) 2) := by
  have h := mutating_ops_keep_counters_derived envId (createEmptyStorage 0)
    "a.ts" 1 ["x"] "c" "m" "ts" 2 (by decide)
  exact ⟨by decide, h.1, h.2.1, h.2.2.1, h.2.2.2⟩

/-- An already-persisted entry used in the loading counterexamples. -/
def entryC4 : StoredComment :=
  { comments := ["x"], fileHash := "h", timestamp := 0, model := "m",
    language := "ts", abstractionLevel := 1 }

/-- A well-versioned persisted document whose stored counters have drifted:
`totalComments` says 7 though the entries hold a single comment. -/
def rawDocC4 : RawStorageData :=
  { version := some "1.0.0"
    metadata := some
      { createdAt := 0, updatedAt := 0, totalFiles := 1, totalComments := 7 }
    files := some [("a.ts", [("level_1", entryC4)])] }

/-- Counterexample to C4 as stated: loading an existing document does not
recompute the counters, so the drifted value 7 survives although the
entries map derives 1. -/
theorem load_keeps_drifted_counters :
    (initializeStorage (some rawDocC4) 5).metadata.totalComments = 7 ∧
      specTotalComments (initializeStorage (some rawDocC4) 5).files = 1 ∧
      ¬ countersDerived (initializeStorage (some rawDocC4) 5) := by
  decide

/-! ## Claim C5: loading and migration -/

/-- Claim C5 (amended): when the stored `version` is absent or differs from
the current one, migration succeeds only if a `metadata` block is present —
then the version is bumped, `updatedAt` is refreshed, the aggregate
counters are kept verbatim (not recomputed) and the entries survive, with
an absent `files` block synthesized empty.  When the version mismatches and
`metadata` is absent, the version bump throws and `initializeStorage` falls
back to a fresh empty document, dropping every entry.  A missing `metadata`
block is synthesized — with `totalComments` fixed to 0 — only when the
stored version already matches. -/
theorem validateAndMigrate_behavior (now : Nat) :
    (∀ (raw : RawStorageData) (m : Metadata),
      raw.version ≠ some STORAGE_VERSION → raw.metadata = some m →
        validateAndMigrate raw now = some
          { version := STORAGE_VERSION
            metadata := { m with updatedAt := now }
            files := raw.files.getD [] }) ∧
      (∀ raw : RawStorageData,
        raw.version ≠ some STORAGE_VERSION → raw.metadata = none →
          validateAndMigrate raw now = none ∧
            initializeStorage (some raw) now = createEmptyStorage now) ∧
      (∀ raw : RawStorageData,
        raw.version = some STORAGE_VERSION → raw.metadata = none →
          validateAndMigrate raw now = some
            { version := STORAGE_VERSION
              metadata :=
                { createdAt := now, updatedAt := now,
                  totalFiles := (raw.files.getD []).length, totalComments := 0 }
              files := raw.files.getD [] }) := by
  refine ⟨?_, ?_, ?_⟩
  · intro raw m hv hm
    have hv' : ¬(raw.version = some "1.0.0") := by
      simpa [STORAGE_VERSION] using hv
    simp [validateAndMigrate, hm, STORAGE_VERSION, hv']
  · intro raw hv hm
    have hv' : ¬(raw.version = some "1.0.0") := by
      simpa [STORAGE_VERSION] using hv
    constructor
    · simp [validateAndMigrate, hv', hm, STORAGE_VERSION]
    · simp [initializeStorage, validateAndMigrate, hv', hm, STORAGE_VERSION]
  · intro raw hv hm
    simp [validateAndMigrate, hv, hm, STORAGE_VERSION]

/-- An already-persisted entry used only in the C5 scenarios. -/
def entryC5 : StoredComment :=
  { comments := ["y", "z"], fileHash := "h2", timestamp := 1, model := "m",
    language := "ts", abstractionLevel := 5 }

/-- A persisted document with no `formatVersion` and no `metadata` but with
stored entries. -/
def rawDocC5 : RawStorageData :=
  { version := none, metadata := none,
    files := some [("b.ts", [("level_5", entryC5)])] }

/-- An old-version document carrying a metadata block and entries. -/
def rawOldC5 : RawStorageData :=
  { version := some "0.9.0"
    metadata := some
      { createdAt := 1, updatedAt := 2, totalFiles := 9, totalComments := 9 }
    files := some [("b.ts", [("level_5", entryC5)])] }

/-- A current-version document missing only the metadata block. -/
def rawNoMetaC5 : RawStorageData :=
  { version := some "1.0.0", metadata := none,
    files := some [("b.ts", [("level_5", entryC5)])] }

/-- Counterexample to C5 as stated: loading a document whose
`formatVersion` is absent (and whose `metadata` is also absent) does not
leave the stored entries intact — the version bump throws, the catch
handler replaces the document with a fresh empty one, and every entry is
dropped. -/
theorem load_absent_version_drops_entries :
    (initializeStorage (some rawDocC5) 3).files = [] ∧
      rawDocC5.files.getD [] ≠ [] := by
  decide

/-- The migration theorem evaluated on concrete documents: an old-version
document with metadata keeps its entries and its (unrecomputed) counters; a
version-and-metadata-less document resets to empty; a current-version
document without metadata gets the synthesized block. -/
theorem validateAndMigrate_behavior_witness :
    validateAndMigrate rawOldC5 3 = some
        { version := STORAGE_VERSION
          metadata :=
            { createdAt := 1, updatedAt := 3, totalFiles := 9, totalComments := 9 }
          files := rawOldC5.files.getD [] } ∧
      initializeStorage (some rawDocC5) 3 = createEmptyStorage 3 ∧
      validateAndMigrate rawNoMetaC5 3 = some
        { version := STORAGE_VERSION
          metadata :=
            { createdAt := 3, updatedAt := 3,
              totalFiles := (rawNoMetaC5.files.getD []).length,
              totalComments := 0 }
          files := rawNoMetaC5.files.getD [] } := by
  have h := validateAndMigrate_behavior 3
  exact ⟨h.1 rawOldC5 _ (by decide) rfl,
    (h.2.1 rawDocC5 (by decide) rfl).2,
    h.2.2 rawNoMetaC5 rfl rfl⟩

/-! ## Claim C7: removal -/

/-- A path appears in a `getStoredFiles` row exactly when it is a key of
the entries map (sorting merely permutes the rows). -/
theorem mem_map_filePath_getStoredFiles (s : CommentStorageData) (x : String) :
    x ∈ (getStoredFiles s).map StoredFileInfo.filePath ↔ x ∈ jsKeys s.files := by
  simp only [getStoredFiles, List.mem_map]
  constructor
  · rintro ⟨info, hmem, hfp⟩
    rw [List.mem_mergeSort] at hmem
    obtain ⟨p, hp, hrow⟩ := List.mem_map.mp hmem
    subst hrow
    exact List.mem_map.mpr ⟨p, hp, hfp⟩
  · intro hx
    obtain ⟨p, hp, hfp⟩ := List.mem_map.mp hx
    refine ⟨_, List.mem_mergeSort.mpr (List.mem_map.mpr ⟨p, hp, rfl⟩), hfp⟩

theorem removeComments_files_of_found (env : Env) (s : CommentStorageData)
    (p : String) (l : Nat) (now : Nat) (fd : JSObj StoredComment)
    (v : StoredComment) (hg : jsGet s.files (env.rel p) = some fd)
    (hgc : jsGet fd (generateCacheKey p l) = some v) :
    (removeComments env s p l now).files =
      (if (jsDel fd (generateCacheKey p l)).length = 0 then
        jsDel s.files (env.rel p)
      else jsSet s.files (env.rel p) (jsDel fd (generateCacheKey p l))) := by
  simp [removeComments, getRelativeFilePath, hg, hgc, saveStorage_files,
    updateMetadata_files]

/-- Claim C7: after `removeComments(p, l)`, `getComments(p, l)` is absent;
and when `l` was the only remaining level stored for `p`, the path
disappears from `getStoredFiles()`. -/
theorem removeComments_then_absent (env : Env) (s : CommentStorageData)
    (p : String) (l : Nat) (now : Nat) :
    getComments env (removeComments env s p l now) p l = none ∧
      (∀ v : StoredComment,
        jsGet s.files (env.rel p) = some [(generateCacheKey p l, v)] →
          env.rel p ∉ (getStoredFiles (removeComments env s p l now)).map
            StoredFileInfo.filePath) := by
  constructor
  · cases hg : jsGet s.files (env.rel p) with
    | none =>
      have hres : removeComments env s p l now = s := by
        simp [removeComments, getRelativeFilePath, hg]
      rw [hres]
      simp [getComments, getRelativeFilePath, hg]
    | some fd =>
      cases hgc : jsGet fd (generateCacheKey p l) with
      | none =>
        have hres : removeComments env s p l now = s := by
          simp [removeComments, getRelativeFilePath, hg, hgc]
        rw [hres]
        simp [getComments, getRelativeFilePath, hg, hgc]
      | some v =>
        have hres := removeComments_files_of_found env s p l now fd v hg hgc
        by_cases hlen : (jsDel fd (generateCacheKey p l)).length = 0
        · rw [if_pos hlen] at hres
          simp [getComments, getRelativeFilePath, hres, jsGet_jsDel_self]
        · rw [if_neg hlen] at hres
          simp [getComments, getRelativeFilePath, hres, jsGet_jsSet_self,
            jsGet_jsDel_self]
  · intro v hg
    have hgc : jsGet [(generateCacheKey p l, v)] (generateCacheKey p l)
        = some v := by simp [jsGet]
    have hres := removeComments_files_of_found env s p l now _ v hg hgc
    have hdel : jsDel [(generateCacheKey p l, v)] (generateCacheKey p l)
        = [] := by simp [jsDel]
    rw [hdel] at hres
    simp only [List.length_nil, if_pos rfl] at hres
    intro hmem
    rw [mem_map_filePath_getStoredFiles, hres] at hmem
    exact not_mem_jsKeys_jsDel s.files (env.rel p) hmem

/-- The removal theorem evaluated on a concrete single-level store. -/
theorem removeComments_then_absent_witness :
    getComments envId
        (removeComments envId
          (storeComments envId (createEmptyStorage 0) "a.ts" 1 ["x"] "c"
            "m" "ts" 1) "a.ts" 1 2) "a.ts" 1 = none ∧
      "a.ts" ∉ (getStoredFiles (removeComments envId
          (storeComments envId (createEmptyStorage 0) "a.ts" 1 ["x"] "c"
            "m" "ts" 1) "a.ts" 1 2)).map StoredFileInfo.filePath := by
  have h := removeComments_then_absent envId
    (storeComments envId (createEmptyStorage 0) "a.ts" 1 ["x"] "c" "m" "ts" 1)
    "a.ts" 1 2
  refine ⟨h.1, ?_⟩
  have h2 := h.2
    { comments := ["x"], fileHash := "c", timestamp := 1, model := "m",
      language := "ts", abstractionLevel := 1 } (by decide)
  exact h2

/-! ## Claim C10: the frame property of store and remove -/

/-- The stored entry looked up through the same access path
(relative path, then cache key) that every store operation uses. -/
def lookupEntry (env : Env) (s : CommentStorageData) (filePath : String)
    (abstractionLevel : Nat) : Option StoredComment :=
  (jsGet s.files (getRelativeFilePath env filePath)).bind
    (fun fileData => jsGet fileData (generateCacheKey filePath abstractionLevel))

/-- Cache keys of distinct levels are distinct strings. -/
theorem generateCacheKey_level_inj {p p' : String} {l l' : Nat}
    (h : generateCacheKey p l = generateCacheKey p' l') : l = l' := by
  unfold generateCacheKey at h
  have hd : "level_".data ++ natToChars l = "level_".data ++ natToChars l' :=
    congrArg String.data h
  exact natToChars_injective (List.append_cancel_left hd)

theorem storeComments_frame (env : Env) (s : CommentStorageData)
    (p : String) (l : Nat) (cs : List String) (c model language : String)
    (now : Nat) (p' : String) (l' : Nat)
    (h : env.rel p' ≠ env.rel p ∨ l' ≠ l) :
    lookupEntry env (storeComments env s p l cs c model language now) p' l'
      = lookupEntry env s p' l' := by
  simp only [lookupEntry, getRelativeFilePath, storeComments_files]
  by_cases hrel : env.rel p' = env.rel p
  · have hl : l' ≠ l := by
      rcases h with hr | hl
      · exact absurd hrel hr
      · exact hl
    have hck : generateCacheKey p' l' ≠ generateCacheKey p l :=
      fun hk => hl (generateCacheKey_level_inj hk)
    have hck' : ¬(generateCacheKey p l = generateCacheKey p' l') :=
      fun hh => hck hh.symm
    rw [hrel, jsGet_jsSet_self]
    cases he : jsGet s.files (env.rel p) with
    | none => simp [he, jsSet, jsGet, hck']
    | some e => simp [he, jsGet_jsSet_ne _ _ hck]
  · rw [jsGet_jsSet_ne _ _ hrel]

theorem removeComments_frame (env : Env) (s : CommentStorageData)
    (p : String) (l : Nat) (now : Nat) (p' : String) (l' : Nat)
    (h : env.rel p' ≠ env.rel p ∨ l' ≠ l) :
    lookupEntry env (removeComments env s p l now) p' l'
      = lookupEntry env s p' l' := by
  cases hg : jsGet s.files (env.rel p) with
  | none =>
    have hres : removeComments env s p l now = s := by
      simp [removeComments, getRelativeFilePath, hg]
    rw [hres]
  | some fd =>
    cases hgc : jsGet fd (generateCacheKey p l) with
    | none =>
      have hres : removeComments env s p l now = s := by
        simp [removeComments, getRelativeFilePath, hg, hgc]
      rw [hres]
    | some v =>
      have hres := removeComments_files_of_found env s p l now fd v hg hgc
      simp only [lookupEntry, getRelativeFilePath]
      by_cases hrel : env.rel p' = env.rel p
      · have hl : l' ≠ l := by
          rcases h with hr | hl
          · exact absurd hrel hr
          · exact hl
        have hck : generateCacheKey p' l' ≠ generateCacheKey p l :=
          fun hk => hl (generateCacheKey_level_inj hk)
        rw [hrel]
        by_cases hlen : (jsDel fd (generateCacheKey p l)).length = 0
        · rw [if_pos hlen] at hres
          rw [hres, jsGet_jsDel_self, hg]
          have := jsGet_eq_none_of_jsDel_eq_nil hck
            (List.length_eq_zero.mp hlen)
          simp [this]
        · rw [if_neg hlen] at hres
          rw [hres, jsGet_jsSet_self, hg]
          simp [jsGet_jsDel_ne _ hck]
      · by_cases hlen : (jsDel fd (generateCacheKey p l)).length = 0
        · rw [if_pos hlen] at hres
          rw [hres, jsGet_jsDel_ne _ hrel]
        · rw [if_neg hlen] at hres
          rw [hres, jsGet_jsSet_ne _ _ hrel]

/-- Claim C10: storing or removing at one key pair leaves the stored entry
at every other key pair untouched, all fields included. -/
theorem store_remove_frame (env : Env) (s : CommentStorageData)
    (p : String) (l : Nat) (cs : List String) (c model language : String)
    (now : Nat) (p' : String) (l' : Nat)
    (h : env.rel p' ≠ env.rel p ∨ l' ≠ l) :
    lookupEntry env (storeComments env s p l cs c model language now) p' l'
        = lookupEntry env s p' l' ∧
      lookupEntry env (removeComments env s p l now) p' l'
        = lookupEntry env s p' l' :=
  ⟨storeComments_frame env s p l cs c model language now p' l' h,
    removeComments_frame env s p l now p' l' h⟩

/-- The frame theorem evaluated on a concrete two-entry store: storing and
removing at ("a.ts", 1) leaves the entry at ("b.ts", 2) unchanged. -/
theorem store_remove_frame_witness :
    lookupEntry envId
        (storeComments envId
          (storeComments envId (createEmptyStorage 0) "b.ts" 2 ["y"] "d"
            "m" "ts" 1) "a.ts" 1 ["x"] "c" "m" "ts" 2) "b.ts" 2
      = lookupEntry envId
          (storeComments envId (createEmptyStorage 0) "b.ts" 2 ["y"] "d"
            "m" "ts" 1) "b.ts" 2 ∧
      lookupEntry envId
          (removeComments envId
            (storeComments envId (createEmptyStorage 0) "b.ts" 2 ["y"] "d"
              "m" "ts" 1) "a.ts" 1 2) "b.ts" 2
        = lookupEntry envId
            (storeComments envId (createEmptyStorage 0) "b.ts" 2 ["y"] "d"
              "m" "ts" 1) "b.ts" 2 :=
  store_remove_frame envId
    (storeComments envId (createEmptyStorage 0) "b.ts" 2 ["y"] "d" "m" "ts" 1)
    "a.ts" 1 ["x"] "c" "m" "ts" 2 "b.ts" 2 (Or.inr (by decide))

/-! ## Claim C3: level-5 reconciliation -/

theorem parseLoop_length : ∀ (src cls : List String),
    (parseLoop src cls).length = src.length := by
  intro src
  induction src with
  | nil => intro cls; simp [parseLoop]
  | cons line0 rest ih =>
    intro cls
    by_cases hb : (jsTrim line0).length = 0
    · simp [parseLoop, hb, ih]
    · cases cls with
      | nil => simp [parseLoop, hb, ih]
      | cons cmt cs => simp [parseLoop, hb, ih]

theorem parseLoop_get? :
    ∀ (src cls : List String) (i : Nat) (line : String),
      src.get? i = some line →
      (parseLoop src cls).get? i = some
        (if (jsTrim line).length = 0 then ""
         else
           match cls.get? ((src.take i).countP nonBlank) with
           | some cmt => jsTrim cmt
           | none => "// Code line") := by
  intro src
  induction src with
  | nil => intro cls i line h; simp at h
  | cons line0 rest ih =>
    intro cls i line h
    cases i with
    | zero =>
      have hl : line0 = line := by simpa using h
      subst hl
      by_cases hb : (jsTrim line0).length = 0
      · simp [parseLoop, hb]
      · cases cls with
        | nil => simp [parseLoop, hb]
        | cons cmt cs => simp [parseLoop, hb]
    | succ i =>
      have h' : rest.get? i = some line := by simpa using h
      by_cases hb : (jsTrim line0).length = 0
      · have hnb : nonBlank line0 = false := by simp [nonBlank, hb]
        simp only [parseLoop, if_pos hb, List.get?_cons_succ,
          List.take_succ_cons, List.countP_cons, hnb]
        simpa using ih cls i line h'
      · have hnb : nonBlank line0 = true := by
          simp only [nonBlank, decide_eq_true_eq]
          omega
        cases cls with
        | nil =>
          simp only [parseLoop, if_neg hb, List.get?_cons_succ,
            List.take_succ_cons, List.countP_cons, hnb]
          simpa using ih [] i line h'
        | cons cmt cs =>
          simp only [parseLoop, if_neg hb, List.get?_cons_succ,
            List.take_succ_cons, List.countP_cons, hnb]
          simpa [List.get?_cons_succ] using ih cs i line h'

/-- Claim C3: the level-5 reconciliation returns exactly one comment per
source line; a blank (whitespace-only) source line maps to the empty
string, the i-th non-blank source line receives the next unused non-blank
response line trimmed (position: the number of non-blank source lines
before it), and once the response lines are exhausted every remaining
non-blank source line receives the fixed placeholder. -/
theorem parseComments_reconciliation (content originalCode : String) :
    (parseComments content originalCode).length
        = (splitOnNl originalCode).length ∧
      ∀ (i : Nat) (line : String),
        (splitOnNl originalCode).get? i = some line →
          (parseComments content originalCode).get? i = some
            (if (jsTrim line).length = 0 then ""
             else
               match ((splitOnNl content).filter nonBlank).get?
                   (((splitOnNl originalCode).take i).countP nonBlank) with
               | some cmt => jsTrim cmt
               | none => "// Code line") := by
  constructor
  · simpa only [parseComments] using
      parseLoop_length (splitOnNl originalCode)
        ((splitOnNl content).filter nonBlank)
  · intro i line h
    simpa only [parseComments] using
      parseLoop_get? (splitOnNl originalCode)
        ((splitOnNl content).filter nonBlank) i line h

/-- The reconciliation theorem evaluated on the concrete scenario from the
specification: source `a`, blank, `b` against two response lines. -/
theorem parseComments_reconciliation_witness :
    (splitOnNl "a\n\nb").get? 2 = some "b" ∧
      (parseComments "comment A\ncomment B" "a\n\nb").get? 2 = some
        (if (jsTrim "b").length = 0 then ""
         else
           match ((splitOnNl "comment A\ncomment B").filter nonBlank).get?
               (((splitOnNl "a\n\nb").take 2).countP nonBlank) with
           | some cmt => jsTrim cmt
           | none => "// Code line") ∧
      parseComments "comment A\ncomment B" "a\n\nb"
        = ["comment A", "", "comment B"] :=
  ⟨by decide,
    (parseComments_reconciliation "comment A\ncomment B" "a\n\nb").2 2 "b"
      (by decide),
    by decide⟩

/-! ## Claims C8 and C9: generateComments -/

/-- Claim C8: with a key present and a non-empty choice list, every
abstraction level in 1..4 yields exactly the single-element array holding
the trimmed response content, while level 5 (explicit or defaulted) yields
an array whose length is the source line count. -/
theorem generateComments_levels (apiKey : String) (request : CommentRequest)
    (content : String) (rest : List String) :
    (apiKey ≠ "" → ∀ l : Nat, request.abstractionLevel = some l →
      1 ≤ l → l ≤ 4 →
      generateComments apiKey request (.ok (content :: rest)) =
        { comments := [jsTrim content], model := "martian", success := true,
          error := none }) ∧
      (apiKey ≠ "" →
        (request.abstractionLevel = some 5 ∨ request.abstractionLevel = none) →
        (generateComments apiKey request (.ok (content :: rest))).comments.length
          = (splitOnNl request.code).length) := by
  constructor
  · intro hk l hl h1 h4
    have hne5 : ¬(effectiveLevel request.abstractionLevel = 5) := by
      rw [hl]
      cases l with
      | zero => omega
      | succ n =>
        simp only [effectiveLevel]
        omega
    simp [generateComments, hk, hne5]
  · intro hk hlvl
    have h5 : effectiveLevel request.abstractionLevel = 5 := by
      rcases hlvl with h | h <;> simp [h, effectiveLevel]
    simp [generateComments, hk, h5, parseComments, parseLoop_length]

/-- The level theorem evaluated concretely: level 2 stores one trimmed
comment; the defaulted level 5 matches the two source lines. -/
theorem generateComments_levels_witness :
    generateComments "k"
        { code := "a\nb", language := "ts", fileName := "f",
          abstractionLevel := some 2 } (.ok [" hello "]) =
      { comments := [jsTrim " hello "], model := "martian", success := true,
        error := none } ∧
      (generateComments "k"
          { code := "a\nb", language := "ts", fileName := "f",
            abstractionLevel := none } (.ok ["x\ny\nz"])).comments.length
        = (splitOnNl "a\nb").length :=
  ⟨(generateComments_levels "k"
      { code := "a\nb", language := "ts", fileName := "f",
        abstractionLevel := some 2 } " hello " []).1 (by decide) 2 rfl
      (by decide) (by decide),
    (generateComments_levels "k"
      { code := "a\nb", language := "ts", fileName := "f",
        abstractionLevel := none } "x\ny\nz" []).2 (by decide) (Or.inr rfl)⟩

/-- Claim C9: whenever `generateComments` reports failure — missing API
key, rejected transport call, or a response without choices — the comments
array is empty and the error field carries a non-empty message (the model
is total, so no exception escapes). -/
theorem generateComments_failure (apiKey : String) (request : CommentRequest)
    (outcome : ApiOutcome)
    (h : (generateComments apiKey request outcome).success = false) :
    (generateComments apiKey request outcome).comments = [] ∧
      ∃ msg, (generateComments apiKey request outcome).error = some msg ∧
        msg ≠ "" := by
  by_cases hk : apiKey = ""
  · exact ⟨by simp [generateComments, hk], "API key not found for martian",
      by simp [generateComments, hk], by decide⟩
  · cases outcome with
    | thrown msg =>
      by_cases hm : msg = ""
      · exact ⟨by simp [generateComments, hk], "Unknown error occurred",
          by simp [generateComments, hk, hm], by decide⟩
      · exact ⟨by simp [generateComments, hk], msg,
          by simp [generateComments, hk, hm], hm⟩
    | ok choices =>
      cases choices with
      | nil => exact ⟨by simp [generateComments, hk],
          "No response choices from API",
          by simp [generateComments, hk], by decide⟩
      | cons content cs => exact absurd h (by simp [generateComments, hk])

/-- The failure theorem evaluated at the missing-key failure. -/
theorem generateComments_failure_witness :
    (generateComments ""
        { code := "a", language := "ts", fileName := "f",
          abstractionLevel := some 5 } (.ok ["x"])).success = false ∧
      ((generateComments ""
          { code := "a", language := "ts", fileName := "f",
            abstractionLevel := some 5 } (.ok ["x"])).comments = [] ∧
        ∃ msg, (generateComments ""
            { code := "a", language := "ts", fileName := "f",
              abstractionLevel := some 5 } (.ok ["x"])).error = some msg ∧
          msg ≠ "") :=
  ⟨by decide,
    generateComments_failure ""
      { code := "a", language := "ts", fileName := "f",
        abstractionLevel := some 5 } (.ok ["x"]) (by decide)⟩
